import Mathlib

/-!
Shallow embedding of `scripts/generate_tezza_v2.py`, the 3D-LUT generator.

Every NumPy operator in the script acts pointwise on the last axis (the RGB
triple of one grid cell): broadcasting applies the same scalar formula to
each cell independently.  The embedding therefore models each operator as a
function on one RGB cell over the exact rationals `ℚ` (Python floats are
modelled exactly; "within floating tolerance" statements become exact
equalities), and a whole-grid version is obtained by mapping the cell
function over the nested-list grid.

Transcendental quantities that Python computes with `math`/NumPy floats and
that are not rational-valued are passed as explicit parameters, faithful to
the role they play in the formulas:
* `adjust_exposure` receives the precomputed factor `2.0 ** ev`;
* `adjust_highlights` / `adjust_shadows` receive the mask-shaping power
  function `x ↦ x ** 1.5` as a parameter `pw`;
* `split_tone` receives `x ↦ x ** 1.2` as a parameter `pw`;
* `hsl_adjust` receives `cos(hue_shift·π/180)` and `sin(hue_shift·π/180)`
  as parameters `cos_a`, `sin_a`.
No theorem below depends on the numeric value of any of these parameters.
-/

/-- One cell of the LUT grid: an RGB triple of exact rationals
(the last axis of the NumPy array `lut[..., 0..2]`). -/
@[ext]
structure RGB where
  r : ℚ
  g : ℚ
  b : ℚ
deriving DecidableEq, Repr

/-- The grid `lut[b][g][r]`: blue index outermost, red index innermost,
exactly the axis order of `np.zeros((size, size, size, 3))` in the script. -/
abbrev Grid := List (List (List RGB))

/-- `np.clip(x, 0, 1)` on one scalar. -/
def clamp01 (x : ℚ) : ℚ := min 1 (max 0 x)

/-- `np.clip(cell, 0, 1)` on one RGB cell. -/
def clampRGB (c : RGB) : RGB := ⟨clamp01 c.r, clamp01 c.g, clamp01 c.b⟩

/-- BT.709 luminance `0.2126*R + 0.7152*G + 0.0722*B`, the expression the
script recomputes inside each luminance-keyed operator. -/
def luma (c : RGB) : ℚ := 0.2126 * c.r + 0.7152 * c.g + 0.0722 * c.b

/-- All three channels of a cell lie in `[0, 1]`. -/
def inRange01 (c : RGB) : Prop :=
  0 ≤ c.r ∧ c.r ≤ 1 ∧ 0 ≤ c.g ∧ c.g ≤ 1 ∧ 0 ≤ c.b ∧ c.b ≤ 1

instance instDecidableInRange01 (c : RGB) : Decidable (inRange01 c) := by
  unfold inRange01; exact inferInstance

/-- Lift a per-cell operator to the whole grid (NumPy broadcasting over the
first three axes). -/
def mapGrid (f : RGB → RGB) (lut : Grid) : Grid :=
  lut.map (fun plane => plane.map (fun row => row.map f))

/-- Membership of a cell in a grid. -/
def memGrid (c : RGB) (lut : Grid) : Prop :=
  ∃ plane ∈ lut, ∃ row ∈ plane, c ∈ row

/-- `identity_lut(size)`: cell `(b, g, r)` is
`(r/(size-1), g/(size-1), b/(size-1))`.  Division over `ℚ` is total
(`q / 0 = 0`); the variant `identityLut?` below models Python's
`ZeroDivisionError` behaviour. -/
def identity_lut (size : ℕ) : Grid :=
  (List.range size).map fun b : ℕ =>
    (List.range size).map fun g : ℕ =>
      (List.range size).map fun r : ℕ =>
        ⟨(r : ℚ) / ((size : ℚ) - 1), (g : ℚ) / ((size : ℚ) - 1),
          (b : ℚ) / ((size : ℚ) - 1)⟩

/-- Division that fails (like Python's `ZeroDivisionError`) on a zero
denominator. -/
def qdiv? (a b : ℚ) : Option ℚ := if b = 0 then none else some (a / b)

/-- `identity_lut(size)` with Python's error behaviour: each cell performs
the divisions `r/(size-1)`, `g/(size-1)`, `b/(size-1)` and the whole
construction fails (returns `none`, the model of an uncaught
`ZeroDivisionError`) as soon as one of them divides by zero. -/
def identityLut? (size : ℕ) : Option Grid :=
  (List.range size).mapM fun b : ℕ =>
    (List.range size).mapM fun g : ℕ =>
      (List.range size).mapM fun r : ℕ => do
        let x ← qdiv? (r : ℚ) ((size : ℚ) - 1)
        let y ← qdiv? (g : ℚ) ((size : ℚ) - 1)
        let z ← qdiv? (b : ℚ) ((size : ℚ) - 1)
        pure (⟨x, y, z⟩ : RGB)

/-- `adjust_exposure(lut, ev)` on one cell.  `factor` is the precomputed
scalar `2.0 ** ev` (transcendental for non-integer `ev`, hence a
parameter); the result is `np.clip(lut * factor, 0, 1)`. -/
def adjust_exposure (c : RGB) (factor : ℚ) : RGB :=
  clampRGB ⟨c.r * factor, c.g * factor, c.b * factor⟩

/-- `adjust_contrast(lut, amount)` on one cell: pivot-at-0.5 scale with
slope `1 + t*0.8` for `t > 0` and `1 + t*0.5` otherwise, then clip. -/
def adjust_contrast (c : RGB) (amount : ℚ) : RGB :=
  let t := amount / 100
  let mid : ℚ := 0.5
  clampRGB
    (if t > 0 then
      ⟨mid + (c.r - mid) * (1 + t * 0.8), mid + (c.g - mid) * (1 + t * 0.8),
        mid + (c.b - mid) * (1 + t * 0.8)⟩
    else
      ⟨mid + (c.r - mid) * (1 + t * 0.5), mid + (c.g - mid) * (1 + t * 0.5),
        mid + (c.b - mid) * (1 + t * 0.5)⟩)

/-- The value `adjust_saturation` computes before its final `np.clip`:
`luminance + (channel - luminance) * (1 + amount/100)` per channel. -/
def satRaw (c : RGB) (amount : ℚ) : RGB :=
  let t := 1 + amount / 100
  let L := luma c
  ⟨L + (c.r - L) * t, L + (c.g - L) * t, L + (c.b - L) * t⟩

/-- `adjust_saturation(lut, amount)` on one cell. -/
def adjust_saturation (c : RGB) (amount : ℚ) : RGB :=
  clampRGB (satRaw c amount)

/-- The value `adjust_vibrance` computes before its final `np.clip`:
per channel, `sat = |channel - luminance|`,
`boost = 1 + t * (1 - clip(sat*3, 0, 1))`,
`luminance + (channel - luminance) * boost`. -/
def vibRaw (c : RGB) (amount : ℚ) : RGB :=
  let t := amount / 100
  let L := luma c
  let boost : ℚ → ℚ := fun x => 1 + t * (1 - clamp01 (|x - L| * 3))
  ⟨L + (c.r - L) * boost c.r, L + (c.g - L) * boost c.g,
    L + (c.b - L) * boost c.b⟩

/-- `adjust_vibrance(lut, amount)` on one cell. -/
def adjust_vibrance (c : RGB) (amount : ℚ) : RGB :=
  clampRGB (vibRaw c amount)

/-- `adjust_highlights(lut, amount)` on one cell.  `pw` is the mask power
`x ↦ x ** 1.5` (irrational-valued over ℚ, hence a parameter);
`mask = clip((L - 0.5) * 2, 0, 1) ** 1.5`, each channel gets
`+ mask * t * 0.3`, then clip. -/
def adjust_highlights (pw : ℚ → ℚ) (c : RGB) (amount : ℚ) : RGB :=
  let t := amount / 100
  let L := luma c
  let mask := pw (clamp01 ((L - 0.5) * 2))
  clampRGB ⟨c.r + mask * t * 0.3, c.g + mask * t * 0.3, c.b + mask * t * 0.3⟩

/-- `adjust_shadows(lut, amount)` on one cell (`pw` models `** 1.5`):
`mask = clip(1 - L*2, 0, 1) ** 1.5`, each channel gets `+ mask * t * 0.3`,
then clip. -/
def adjust_shadows (pw : ℚ → ℚ) (c : RGB) (amount : ℚ) : RGB :=
  let t := amount / 100
  let L := luma c
  let mask := pw (clamp01 (1 - L * 2))
  clampRGB ⟨c.r + mask * t * 0.3, c.g + mask * t * 0.3, c.b + mask * t * 0.3⟩

/-- `adjust_whites(lut, amount)` on one cell:
`mask = clip((L - 0.7) * 3.3, 0, 1) ** 2`, each channel gets
`+ mask * t * 0.25`, then clip. -/
def adjust_whites (c : RGB) (amount : ℚ) : RGB :=
  let t := amount / 100
  let L := luma c
  let mask := clamp01 ((L - 0.7) * 3.3) ^ 2
  clampRGB ⟨c.r + mask * t * 0.25, c.g + mask * t * 0.25, c.b + mask * t * 0.25⟩

/-- `adjust_blacks(lut, amount)` on one cell:
`mask = clip(1 - L*3.3, 0, 1) ** 2`, each channel gets `+ mask * t * 0.2`,
then clip. -/
def adjust_blacks (c : RGB) (amount : ℚ) : RGB :=
  let t := amount / 100
  let L := luma c
  let mask := clamp01 (1 - L * 3.3) ^ 2
  clampRGB ⟨c.r + mask * t * 0.2, c.g + mask * t * 0.2, c.b + mask * t * 0.2⟩

/-- `adjust_temperature(lut, amount)` on one cell:
`R += t*0.06`, `B -= t*0.06`, `G += t*0.015`, then clip. -/
def adjust_temperature (c : RGB) (amount : ℚ) : RGB :=
  let t := amount / 100
  clampRGB ⟨c.r + t * 0.06, c.g + t * 0.015, c.b - t * 0.06⟩

/-- `adjust_tint(lut, amount)` on one cell:
`G -= t*0.04`, `R += t*0.02`, `B += t*0.02`, then clip. -/
def adjust_tint (c : RGB) (amount : ℚ) : RGB :=
  let t := amount / 100
  clampRGB ⟨c.r + t * 0.02, c.g - t * 0.04, c.b + t * 0.02⟩

/-- `lift_blacks(lut, amount)` on one cell:
each channel becomes `amount + channel * (1 - amount)`, then clip. -/
def lift_blacks (c : RGB) (amount : ℚ) : RGB :=
  clampRGB ⟨amount + c.r * (1 - amount), amount + c.g * (1 - amount),
    amount + c.b * (1 - amount)⟩

/-- `split_tone(lut, shadow_rgb, highlight_rgb, balance=0.5)` on one cell.
`pw` models the mask power `x ↦ x ** 1.2`.  The `balance` argument is
accepted (with the source's default 0.5) and, as in the source, never
read by the computation. -/
def split_tone (pw : ℚ → ℚ) (c : RGB) (shadow_rgb highlight_rgb : RGB)
    (balance : ℚ) : RGB :=
  let L := luma c
  let shadow_mask := pw (clamp01 (1 - L * 2))
  let highlight_mask := pw (clamp01 ((L - 0.5) * 2))
  clampRGB
    ⟨c.r + shadow_mask * (shadow_rgb.r - 0.5) * 0.15
        + highlight_mask * (highlight_rgb.r - 0.5) * 0.15,
      c.g + shadow_mask * (shadow_rgb.g - 0.5) * 0.15
        + highlight_mask * (highlight_rgb.g - 0.5) * 0.15,
      c.b + shadow_mask * (shadow_rgb.b - 0.5) * 0.15
        + highlight_mask * (highlight_rgb.b - 0.5) * 0.15⟩

/-- Python's `sorted(points, key = first component)`: a stable sort by the
control point's input coordinate. -/
def sortPoints (points : List (ℚ × ℚ)) : List (ℚ × ℚ) :=
  points.insertionSort (fun p q => p.1 ≤ q.1)

/-- `np.interp(x, xs, ys)` on a list of `(input, output)` pairs assumed
sorted by input: below the first input return the first output, above the
last input return the last output, otherwise linear interpolation between
the two bracketing points.  The empty-list case (NumPy raises) returns 0
and is never reached through `apply_curve` in the claims. -/
def interp (x : ℚ) : List (ℚ × ℚ) → ℚ
  | [] => 0
  | [p] => p.2
  | p :: q :: rest =>
    if x ≤ p.1 then p.2
    else if x ≤ q.1 then p.2 + (q.2 - p.2) * (x - p.1) / (q.1 - p.1)
    else interp x (q :: rest)

/-- `apply_curve(x, points)`: sort the control points by input, then
`np.interp` over them. -/
def apply_curve (x : ℚ) (points : List (ℚ × ℚ)) : ℚ :=
  interp x (sortPoints points)

/-- Python's float `%` (floored modulo) over ℚ. -/
def qmod (a b : ℚ) : ℚ := a - b * ⌊a / b⌋

/-- The hue (in degrees, `[0, 360)`) that `hsl_adjust` computes for one
cell.  NumPy assigns `hue[mask_r]`, then `hue[mask_g]`, then `hue[mask_b]`,
so where the masks overlap (ties in the channel maximum) the blue branch
wins over green, which wins over red; cells with `delta ≤ 0.001` keep hue
0.  Finally `hue = hue % 360`. -/
def hueOf (c : RGB) : ℚ :=
  let cmax := max (max c.r c.g) c.b
  let cmin := min (min c.r c.g) c.b
  let delta := cmax - cmin
  let hue :=
    if cmax = c.b ∧ delta > 0.001 then 60 * ((c.r - c.g) / delta + 4)
    else if cmax = c.g ∧ delta > 0.001 then 60 * ((c.b - c.r) / delta + 2)
    else if cmax = c.r ∧ delta > 0.001 then 60 * qmod ((c.g - c.b) / delta) 6
    else 0
  qmod hue 360

/-- The saturation `hsl_adjust` computes for one cell:
`delta / cmax` when `cmax > 0.001`, else 0. -/
def satOf (c : RGB) : ℚ :=
  let cmax := max (max c.r c.g) c.b
  let cmin := min (min c.r c.g) c.b
  if cmax > 0.001 then (cmax - cmin) / cmax else 0

/-- The selection `strength` of `hsl_adjust` for one cell: a hue-window
term (smooth falloff when `h_min < h_max`, hard 0/1 wrap-around indicator
otherwise) times `clip(saturation * 3, 0, 1)`. -/
def hslStrength (c : RGB) (target_hue_range : ℚ × ℚ) : ℚ :=
  let hue := hueOf c
  let h_min := target_hue_range.1
  let h_max := target_hue_range.2
  let base :=
    if h_min < h_max then
      let center := (h_min + h_max) / 2
      let width := (h_max - h_min) / 2
      let dist := |hue - center|
      clamp01 (1 - (dist - width * 0.6) / (width * 0.4))
    else
      if hue ≥ h_min ∨ hue ≤ h_max then 1 else 0
  base * clamp01 (satOf c * 3)

/-- `hsl_adjust(lut, target_hue_range, hue_shift, sat_shift, lum_shift)` on
one cell.  `cos_a` and `sin_a` are the values
`np.cos(hue_shift * π / 180)` and `np.sin(hue_shift * π / 180)`
(transcendental, hence parameters; they are only read when
`hue_shift ≠ 0`).  The three conditional blocks mirror the source: the
saturation block rebuilds the channels from the original cell, the
luminance block adds to the current result, and the hue block rotates the
current result's luminance-centred deviations. -/
def hsl_adjust (cos_a sin_a : ℚ) (c : RGB) (target_hue_range : ℚ × ℚ)
    (hue_shift sat_shift lum_shift : ℚ) : RGB :=
  let strength := hslStrength c target_hue_range
  let result := c
  let result :=
    if sat_shift ≠ 0 then
      let saturation := satOf c
      let new_sat := clamp01 (saturation * (1 + sat_shift))
      let sf := if saturation > 0.001 then new_sat / saturation else 1
      let sat_factor := strength * sf + (1 - strength) * 1
      let L := luma c
      (⟨L + (c.r - L) * sat_factor, L + (c.g - L) * sat_factor,
        L + (c.b - L) * sat_factor⟩ : RGB)
    else result
  let result :=
    if lum_shift ≠ 0 then
      (⟨result.r + strength * lum_shift * 0.15,
        result.g + strength * lum_shift * 0.15,
        result.b + strength * lum_shift * 0.15⟩ : RGB)
    else result
  let result :=
    if hue_shift ≠ 0 then
      let L := 0.2126 * result.r + 0.7152 * result.g + 0.0722 * result.b
      let r_c := result.r - L
      let g_c := result.g - L
      let b_c := result.b - L
      let nr := r_c * cos_a + g_c * sin_a * 0.5
      let ng := g_c * cos_a - r_c * sin_a * 0.3 + b_c * sin_a * 0.3
      let nb := b_c * cos_a - g_c * sin_a * 0.5
      (⟨result.r + strength * (nr - r_c) * 0.5,
        result.g + strength * (ng - g_c) * 0.5,
        result.b + strength * (nb - b_c) * 0.5⟩ : RGB)
    else result
  clampRGB result

/-- Left-pad a digit string with zeros to width 6. -/
def pad6 (s : String) : String :=
  String.mk (List.replicate (6 - s.length) '0') ++ s

/-- Python's `f'{v:.6f}'` for the clamped range `v ∈ [0, 1]`: round
`v * 10^6` to the nearest integer and print with exactly six decimal
digits.  (Python rounds ties to even, but no IEEE double in `[0,1]` is an
exact tie at the sixth decimal, so nearest-integer rounding is exact.) -/
def fmt6 (q : ℚ) : String :=
  let n : ℕ := (⌊q * 1000000 + 1 / 2⌋).toNat
  toString (n / 1000000) ++ "." ++ pad6 (toString (n % 1000000))

/-- One data line of the `.cube` file:
`f'{rgb[0]:.6f} {rgb[1]:.6f} {rgb[2]:.6f}'`. -/
def cellLine (c : RGB) : String :=
  fmt6 c.r ++ " " ++ fmt6 c.g ++ " " ++ fmt6 c.b

/-- The data lines of `write_cube`, in loop order: `b` outermost, then `g`,
then `r` innermost (red fastest-varying). -/
def dataLines (lut : Grid) : List String :=
  (lut.map (fun plane => (plane.map (fun row => row.map cellLine)).flatten)).flatten

/-- `write_cube(lut, filepath, title)` as the list of lines it writes:
the four header lines (with `size = lut.shape[0]`), a blank line, then the
data lines. -/
def write_cube (lut : Grid) (title : String) : List String :=
  let size := lut.length
  ["TITLE \"" ++ title ++ "\"",
    "LUT_3D_SIZE " ++ toString size,
    "DOMAIN_MIN 0.0 0.0 0.0",
    "DOMAIN_MAX 1.0 1.0 1.0",
    ""] ++ dataLines lut

/-- The grid has size `N` along each of the three index axes. -/
def wellFormed (lut : Grid) (N : ℕ) : Prop :=
  lut.length = N ∧
    ∀ plane ∈ lut, plane.length = N ∧ ∀ row ∈ plane, row.length = N

instance instDecidableWellFormed (lut : Grid) (N : ℕ) :
    Decidable (wellFormed lut N) := by
  unfold wellFormed; exact inferInstance


/-! ### Basic facts about clamping -/

theorem clamp01_mem (x : ℚ) : 0 ≤ clamp01 x ∧ clamp01 x ≤ 1 :=
  ⟨le_min zero_le_one (le_max_left 0 x), min_le_left 1 _⟩

theorem inRange01_clampRGB (c : RGB) : inRange01 (clampRGB c) :=
  ⟨(clamp01_mem c.r).1, (clamp01_mem c.r).2, (clamp01_mem c.g).1,
    (clamp01_mem c.g).2, (clamp01_mem c.b).1, (clamp01_mem c.b).2⟩

theorem clamp01_eq_self {x : ℚ} (h0 : 0 ≤ x) (h1 : x ≤ 1) : clamp01 x = x := by
  unfold clamp01; rw [max_eq_right h0, min_eq_right h1]

theorem clampRGB_eq_self {c : RGB} (h : inRange01 c) : clampRGB c = c := by
  obtain ⟨h1, h2, h3, h4, h5, h6⟩ := h
  unfold clampRGB
  ext <;> simp [clamp01_eq_self, *]

/-! ### C3: identity grid construction -/

/-- C3: for every size `N ≥ 2` and indices `bi, gi, ri < N`, the cell of
`identity_lut N` at `(bi, gi, ri)` is `(ri/(N-1), gi/(N-1), bi/(N-1))`. -/
theorem identity_lut_cells (N bi gi ri : ℕ) (hN : 2 ≤ N)
    (hb : bi < N) (hg : gi < N) (hr : ri < N) :
    ((identity_lut N)[bi]?.bind fun plane => plane[gi]?).bind
        (fun row => row[ri]?) =
      some ⟨(ri : ℚ) / ((N : ℚ) - 1), (gi : ℚ) / ((N : ℚ) - 1),
        (bi : ℚ) / ((N : ℚ) - 1)⟩ := by
  simp only [identity_lut, List.getElem?_map, List.getElem?_range, hb, hg, hr,
    if_true, Option.map_some', Option.some_bind]

theorem identity_lut_cells_witness :
    ((identity_lut 2)[1]?.bind fun plane => plane[0]?).bind
        (fun row => row[1]?) =
      some ⟨(1 : ℚ) / ((2 : ℚ) - 1), (0 : ℚ) / ((2 : ℚ) - 1),
        (1 : ℚ) / ((2 : ℚ) - 1)⟩ := by
  have h := identity_lut_cells 2 1 0 1 (by norm_num) (by norm_num) (by norm_num)
    (by norm_num)
  simpa using h

/-! ### C5: operators with amount 0 are the identity -/

/-- C5: on any cell with channels in `[0, 1]`, each of `adjust_contrast`,
`adjust_saturation`, `adjust_vibrance`, `adjust_temperature`,
`adjust_tint`, `adjust_highlights`, `adjust_shadows`, `adjust_whites` and
`adjust_blacks` invoked with `amount = 0` returns the cell unchanged
(exact equality; the Python computation incurs no rounding here either,
since every intermediate is multiplied by `t = 0`). -/
theorem zero_amount_identity (pw : ℚ → ℚ) (c : RGB) (h : inRange01 c) :
    adjust_contrast c 0 = c ∧ adjust_saturation c 0 = c ∧
    adjust_vibrance c 0 = c ∧ adjust_temperature c 0 = c ∧
    adjust_tint c 0 = c ∧ adjust_highlights pw c 0 = c ∧
    adjust_shadows pw c 0 = c ∧ adjust_whites c 0 = c ∧
    adjust_blacks c 0 = c := by
  have fix : ∀ d : RGB, d = c → clampRGB d = c := by
    rintro d rfl; exact clampRGB_eq_self h
  refine ⟨?_, ?_, ?_, ?_, ?_, ?_, ?_, ?_, ?_⟩
  · show clampRGB _ = c
    rw [if_neg (by norm_num)]
    exact fix _ (by ext <;> ring)
  · exact fix _ (by ext <;> simp [satRaw] <;> ring)
  · exact fix _ (by ext <;> simp [vibRaw] <;> ring)
  · exact fix _ (by ext <;> ring)
  · exact fix _ (by ext <;> ring)
  · exact fix _ (by ext <;> ring)
  · exact fix _ (by ext <;> ring)
  · exact fix _ (by ext <;> ring)
  · exact fix _ (by ext <;> ring)

theorem zero_amount_identity_witness :
    inRange01 (⟨0.25, 0.5, 0.75⟩ : RGB) ∧
    adjust_contrast ⟨0.25, 0.5, 0.75⟩ 0 = (⟨0.25, 0.5, 0.75⟩ : RGB) :=
  ⟨by norm_num [inRange01],
    (zero_amount_identity id ⟨0.25, 0.5, 0.75⟩ (by norm_num [inRange01])).1⟩

/-! ### C2: luminance neutrality of saturation and vibrance -/

/-- C2 counterexample: `adjust_vibrance` does not leave the BT.709
luminance unchanged.  At the in-range cell `(1/2, 1/4, 1/4)` with
`amount = 100` no clamping occurs, yet the per-channel boost factors
differ between channels, so the output luminance differs from the input
luminance (by about 0.018, far beyond any floating tolerance). -/
theorem vibrance_luminance_counterexample :
    luma (adjust_vibrance ⟨1/2, 1/4, 1/4⟩ 100) ≠ luma ⟨1/2, 1/4, 1/4⟩ := by
  norm_num [luma, adjust_vibrance, vibRaw, clampRGB, clamp01, max_def,
    min_def, abs]

/-- C2 amended: `adjust_saturation` preserves the BT.709 luminance of
every cell, for every amount: exactly so before its final clamp, and
hence for the full operator whenever the unclamped values already lie in
`[0, 1]` (the final `np.clip` is then a no-op).  (`adjust_vibrance` has no
such property: see the counterexample.) -/
theorem saturation_luminance_neutral (c : RGB) (amount : ℚ)
    (h : inRange01 (satRaw c amount)) :
    luma (satRaw c amount) = luma c ∧
    luma (adjust_saturation c amount) = luma c := by
  have h1 : luma (satRaw c amount) = luma c := by
    simp only [satRaw, luma]; ring
  refine ⟨h1, ?_⟩
  rw [adjust_saturation, clampRGB_eq_self h]
  exact h1

theorem saturation_luminance_neutral_witness :
    inRange01 (satRaw ⟨1/2, 1/2, 1/2⟩ 50) ∧
    luma (adjust_saturation ⟨1/2, 1/2, 1/2⟩ 50) = luma ⟨1/2, 1/2, 1/2⟩ :=
  ⟨by norm_num [inRange01, satRaw, luma],
    (saturation_luminance_neutral ⟨1/2, 1/2, 1/2⟩ 50
      (by norm_num [inRange01, satRaw, luma])).2⟩

/-! ### C8: behaviour of the identity construction for N < 2 -/

/-- C8: grid sizes below 2 do not fail fast with an attributed error.
With `N = 0` the identity construction silently succeeds with an empty
grid (the loops never run, so no division is attempted and the pipeline
would proceed to write a degenerate `LUT_3D_SIZE 0` file); with `N = 1`
it fails, but only with the bare division-by-zero of `r / (size - 1)`
(`none` here models Python's uncaught `ZeroDivisionError`), which names
no operator and no preset. -/
theorem identity_lut_undersized_no_error :
    identityLut? 0 = some [] ∧ identityLut? 1 = none :=
  ⟨rfl, by simp [identityLut?, List.range_succ, qdiv?]; rfl⟩

/-! ### C9: split-tone ignores its balance parameter -/

/-- C9: the output of `split_tone` is independent of the `balance`
argument: the parameter is bound but never read, so any two balance
values give identical outputs for every cell, mask power, shadow colour
and highlight colour. -/
theorem split_tone_balance_independent (pw : ℚ → ℚ)
    (c shadow_rgb highlight_rgb : RGB) (b1 b2 : ℚ) :
    split_tone pw c shadow_rgb highlight_rgb b1 =
      split_tone pw c shadow_rgb highlight_rgb b2 := rfl

/-! ### C10: hsl_adjust with all shifts zero is the identity -/

/-- C10: `hsl_adjust` invoked with `hue_shift = sat_shift = lum_shift = 0`
returns every in-range cell unchanged, for every hue range (all three
conditional adjustment blocks are skipped and the final clamp is a no-op
on values already in `[0, 1]`). -/
theorem hsl_zero_shifts (cos_a sin_a : ℚ) (c : RGB) (rng : ℚ × ℚ)
    (h : inRange01 c) :
    hsl_adjust cos_a sin_a c rng 0 0 0 = c := by
  show clampRGB _ = c
  rw [if_neg (by norm_num), if_neg (by norm_num), if_neg (by norm_num)]
  exact clampRGB_eq_self h

theorem hsl_zero_shifts_witness :
    inRange01 (⟨0.3, 0.6, 0.9⟩ : RGB) ∧
    hsl_adjust 1 0 ⟨0.3, 0.6, 0.9⟩ (15, 45) 0 0 0 = (⟨0.3, 0.6, 0.9⟩ : RGB) :=
  ⟨by norm_num [inRange01],
    hsl_zero_shifts 1 0 ⟨0.3, 0.6, 0.9⟩ (15, 45) (by norm_num [inRange01])⟩

/-! ### Curve interpolation lemmas -/

instance instIsTotalPointLe :
    IsTotal (ℚ × ℚ) (fun p q : ℚ × ℚ => p.1 ≤ q.1) :=
  ⟨fun a b => le_total a.1 b.1⟩

instance instIsTransPointLe :
    IsTrans (ℚ × ℚ) (fun p q : ℚ × ℚ => p.1 ≤ q.1) :=
  ⟨fun _ _ _ hab hbc => le_trans hab hbc⟩

theorem sortPoints_perm (pts : List (ℚ × ℚ)) :
    List.Perm (sortPoints pts) pts :=
  List.perm_insertionSort _ pts

theorem sortPoints_sorted (pts : List (ℚ × ℚ)) :
    List.Sorted (fun p q : ℚ × ℚ => p.1 ≤ q.1) (sortPoints pts) :=
  List.sorted_insertionSort _ pts

theorem getLastI_cons_cons : ∀ (a b : ℚ × ℚ) (l : List (ℚ × ℚ)),
    (a :: b :: l).getLastI = (b :: l).getLastI
  | _, _, [] => rfl
  | _, _, [_] => rfl
  | _, _, c :: d :: t => getLastI_cons_cons c d t

theorem getLastI_mem : ∀ l : List (ℚ × ℚ), l ≠ [] → l.getLastI ∈ l
  | [a], _ => by simp [List.getLastI]
  | a :: b :: t, _ => by
    rw [getLastI_cons_cons]
    exact List.mem_cons_of_mem a (getLastI_mem (b :: t) (by simp))

theorem sorted_le_getLastI :
    ∀ l : List (ℚ × ℚ), List.Sorted (fun p q : ℚ × ℚ => p.1 ≤ q.1) l →
      ∀ p ∈ l, p.1 ≤ l.getLastI.1
  | [], _, p, hp => absurd hp (by simp)
  | [a], _, p, hp => by
    simp only [List.mem_singleton] at hp
    subst hp; simp [List.getLastI]
  | a :: b :: t, hs, p, hp => by
    rw [getLastI_cons_cons]
    obtain ⟨ha, hs'⟩ := List.sorted_cons.mp hs
    rcases List.mem_cons.mp hp with rfl | hp'
    · exact le_trans (ha b (by simp))
        (sorted_le_getLastI (b :: t) hs' b (by simp))
    · exact sorted_le_getLastI (b :: t) hs' p hp'

theorem sorted_headI_le (l : List (ℚ × ℚ))
    (hs : List.Sorted (fun p q : ℚ × ℚ => p.1 ≤ q.1) l) :
    ∀ p ∈ l, l.headI.1 ≤ p.1 := by
  cases l with
  | nil => simp
  | cons a t =>
    intro p hp
    rcases List.mem_cons.mp hp with rfl | hp'
    · simp
    · exact (List.sorted_cons.mp hs).1 p hp'

theorem interp_head (x : ℚ) (l : List (ℚ × ℚ)) (hl : l ≠ [])
    (h : ∀ p ∈ l, x < p.1) : interp x l = l.headI.2 := by
  cases l with
  | nil => exact absurd rfl hl
  | cons a t =>
    cases t with
    | nil => simp [interp]
    | cons b t' =>
      have ha : x < a.1 := h a (by simp)
      simp [interp, le_of_lt ha]

theorem interp_last (x : ℚ) :
    ∀ l : List (ℚ × ℚ), l ≠ [] → (∀ p ∈ l, p.1 < x) →
      interp x l = l.getLastI.2
  | [], hl, _ => absurd rfl hl
  | [a], _, _ => by simp [interp, List.getLastI]
  | a :: b :: t, _, h => by
    have ha : ¬ x ≤ a.1 := not_le.mpr (h a (by simp))
    have hb : ¬ x ≤ b.1 := not_le.mpr (h b (by simp))
    rw [getLastI_cons_cons]
    show (if x ≤ a.1 then a.2
        else if x ≤ b.1 then a.2 + (b.2 - a.2) * (x - a.1) / (b.1 - a.1)
        else interp x (b :: t)) = (b :: t).getLastI.2
    rw [if_neg ha, if_neg hb]
    exact interp_last x (b :: t) (by simp) (fun p hp => h p (by simp [hp]))

theorem interp_bounds (x : ℚ) :
    ∀ l : List (ℚ × ℚ), l ≠ [] → (∀ p ∈ l, 0 ≤ p.2 ∧ p.2 ≤ 1) →
      0 ≤ interp x l ∧ interp x l ≤ 1
  | [], hl, _ => absurd rfl hl
  | [a], _, hp => by simpa [interp] using hp a (by simp)
  | a :: b :: t, _, hp => by
    show 0 ≤ (if x ≤ a.1 then a.2
        else if x ≤ b.1 then a.2 + (b.2 - a.2) * (x - a.1) / (b.1 - a.1)
        else interp x (b :: t)) ∧
      (if x ≤ a.1 then a.2
        else if x ≤ b.1 then a.2 + (b.2 - a.2) * (x - a.1) / (b.1 - a.1)
        else interp x (b :: t)) ≤ 1
    obtain ⟨ha0, ha1⟩ := hp a (by simp)
    obtain ⟨hb0, hb1⟩ := hp b (by simp)
    split_ifs with h1 h2
    · exact ⟨ha0, ha1⟩
    · have hax : a.1 < x := lt_of_not_le h1
      have hd : 0 < b.1 - a.1 := by linarith
      have hs0 : 0 ≤ (x - a.1) / (b.1 - a.1) := div_nonneg (by linarith) hd.le
      have hs1 : (x - a.1) / (b.1 - a.1) ≤ 1 := (div_le_one hd).mpr (by linarith)
      rw [mul_div_assoc]
      set s := (x - a.1) / (b.1 - a.1) with hs
      constructor <;> nlinarith
    · exact interp_bounds x (b :: t) (by simp)
        (fun p hpm => hp p (by simp [hpm]))

/-! ### C6: curve boundary behaviour -/

/-- C6: for a non-empty control-point list, the head of the sorted list is
the smallest point and its tail end the largest, and `apply_curve` returns
the smallest point's output for every `x` below all control-point inputs
and the largest point's output for every `x` above all of them. -/
theorem curve_boundary (x : ℚ) (pts : List (ℚ × ℚ)) (hne : pts ≠ []) :
    (∀ p ∈ pts, (sortPoints pts).headI.1 ≤ p.1) ∧
    (∀ p ∈ pts, p.1 ≤ (sortPoints pts).getLastI.1) ∧
    ((∀ p ∈ pts, x < p.1) → apply_curve x pts = (sortPoints pts).headI.2) ∧
    ((∀ p ∈ pts, p.1 < x) → apply_curve x pts = (sortPoints pts).getLastI.2) := by
  have hperm := sortPoints_perm pts
  have hne' : sortPoints pts ≠ [] := by
    intro h0
    apply hne
    have hlen := hperm.length_eq
    rw [h0, List.length_nil] at hlen
    exact List.length_eq_zero.mp hlen.symm
  refine ⟨?_, ?_, ?_, ?_⟩
  · intro p hp
    exact sorted_headI_le _ (sortPoints_sorted pts) p (hperm.mem_iff.mpr hp)
  · intro p hp
    exact sorted_le_getLastI _ (sortPoints_sorted pts) p (hperm.mem_iff.mpr hp)
  · intro h
    exact interp_head x _ hne' (fun p hp => h p (hperm.mem_iff.mp hp))
  · intro h
    exact interp_last x _ hne' (fun p hp => h p (hperm.mem_iff.mp hp))

theorem curve_boundary_witness :
    apply_curve (-1) [((0 : ℚ), (3 : ℚ)), (1, 7)] =
      (sortPoints [((0 : ℚ), (3 : ℚ)), (1, 7)]).headI.2 ∧
    apply_curve 2 [((0 : ℚ), (3 : ℚ)), (1, 7)] =
      (sortPoints [((0 : ℚ), (3 : ℚ)), (1, 7)]).getLastI.2 :=
  ⟨(curve_boundary (-1) [(0, 3), (1, 7)] (by simp)).2.2.1 (by
      rintro p hp
      rcases List.mem_cons.mp hp with rfl | hp'
      · norm_num
      · rcases List.mem_singleton.mp hp' with rfl
        norm_num),
    (curve_boundary 2 [(0, 3), (1, 7)] (by simp)).2.2.2 (by
      rintro p hp
      rcases List.mem_cons.mp hp with rfl | hp'
      · norm_num
      · rcases List.mem_singleton.mp hp' with rfl
        norm_num)⟩

/-! ### C7: wrap-around hue selection -/

/-- C7: whenever `h_min ≥ h_max` the hue window of `hslStrength` wraps
through 0°/360° and is a hard 0/1 indicator (no smoothing): the strength
is the indicator of `hue ≥ h_min ∨ hue ≤ h_max` times the saturation
gate `clip(saturation*3, 0, 1)`.  On saturated synthetic cells of hues
355°, 5° and 180° the range `(350, 10)` selects the first two (nonzero
strength) and excludes the third (strength 0). -/
theorem hsl_wraparound (c : RGB) (h_min h_max : ℚ) (h : ¬ h_min < h_max) :
    hslStrength c (h_min, h_max) =
      (if hueOf c ≥ h_min ∨ hueOf c ≤ h_max then 1 else 0) *
        clamp01 (satOf c * 3) ∧
    hueOf ⟨1, 0, 1/12⟩ = 355 ∧
    hueOf ⟨1, 1/12, 0⟩ = 5 ∧
    hueOf ⟨0, 1, 1⟩ = 180 ∧
    hslStrength ⟨1, 0, 1/12⟩ (350, 10) ≠ 0 ∧
    hslStrength ⟨1, 1/12, 0⟩ (350, 10) ≠ 0 ∧
    hslStrength ⟨0, 1, 1⟩ (350, 10) = 0 := by
  refine ⟨?_, ?_, ?_, ?_, ?_, ?_, ?_⟩
  · simp only [hslStrength]
    rw [if_neg h]
  · norm_num [hueOf, qmod, max_def, min_def]
  · norm_num [hueOf, qmod, max_def, min_def]
  · norm_num [hueOf, qmod, max_def, min_def]
  · norm_num [hslStrength, hueOf, satOf, qmod, clamp01, max_def, min_def]
  · norm_num [hslStrength, hueOf, satOf, qmod, clamp01, max_def, min_def]
  · norm_num [hslStrength, hueOf, satOf, qmod, clamp01, max_def, min_def]

theorem hsl_wraparound_witness :
    hslStrength ⟨1, 1, 1⟩ ((350 : ℚ), (10 : ℚ)) =
      (if hueOf ⟨1, 1, 1⟩ ≥ 350 ∨ hueOf ⟨1, 1, 1⟩ ≤ 10 then 1 else 0) *
        clamp01 (satOf ⟨1, 1, 1⟩ * 3) ∧
    hueOf ⟨1, 0, 1/12⟩ = 355 :=
  ⟨(hsl_wraparound ⟨1, 1, 1⟩ 350 10 (by norm_num)).1,
    (hsl_wraparound ⟨1, 1, 1⟩ 350 10 (by norm_num)).2.1⟩

/-! ### C1: clamping invariant -/

theorem memGrid_mapGrid {f : RGB → RGB} {lut : Grid} {c : RGB}
    (h : memGrid c (mapGrid f lut)) : ∃ c0, memGrid c0 lut ∧ c = f c0 := by
  obtain ⟨plane, hplane, row, hrow, hc⟩ := h
  simp only [mapGrid, List.mem_map] at hplane
  obtain ⟨plane0, hplane0, rfl⟩ := hplane
  simp only [List.mem_map] at hrow
  obtain ⟨row0, hrow0, rfl⟩ := hrow
  simp only [List.mem_map] at hc
  obtain ⟨c0, hc0, rfl⟩ := hc
  exact ⟨c0, ⟨plane0, hplane0, row0, hrow0, hc0⟩, rfl⟩

/-- C1: every operator of the library clamps every channel of every cell
into `[0, 1]`, for every parameter value (in particular for the stated
valid ranges): exposure, contrast, saturation, vibrance, highlights,
shadows, whites, blacks, temperature, tint, black lift, `hsl_adjust` and
`split_tone` all end in `np.clip(·, 0, 1)`, and `apply_curve` stays within
`[0, 1]` whenever the control-point outputs do.  The final conjunct lifts
the per-cell fact to grids: mapping any range-preserving cell operator
over a grid leaves every output cell in range — hence each preset's final
grid (operator compositions ending in such a curve) has all cells in
`[0, 1]`. -/
theorem clamping_invariant (pw : ℚ → ℚ) (cos_a sin_a : ℚ) (c : RGB)
    (factor amount lift : ℚ) (rng : ℚ × ℚ)
    (hue_shift sat_shift lum_shift : ℚ) (shadow_rgb highlight_rgb : RGB)
    (balance : ℚ) (x : ℚ) (pts : List (ℚ × ℚ)) (f : RGB → RGB) (lut : Grid)
    (c' : RGB) (hpts : pts ≠ []) (hys : ∀ p ∈ pts, 0 ≤ p.2 ∧ p.2 ≤ 1) :
    inRange01 (adjust_exposure c factor) ∧
    inRange01 (adjust_contrast c amount) ∧
    inRange01 (adjust_saturation c amount) ∧
    inRange01 (adjust_vibrance c amount) ∧
    inRange01 (adjust_highlights pw c amount) ∧
    inRange01 (adjust_shadows pw c amount) ∧
    inRange01 (adjust_whites c amount) ∧
    inRange01 (adjust_blacks c amount) ∧
    inRange01 (adjust_temperature c amount) ∧
    inRange01 (adjust_tint c amount) ∧
    inRange01 (lift_blacks c lift) ∧
    inRange01 (hsl_adjust cos_a sin_a c rng hue_shift sat_shift lum_shift) ∧
    inRange01 (split_tone pw c shadow_rgb highlight_rgb balance) ∧
    (0 ≤ apply_curve x pts ∧ apply_curve x pts ≤ 1) ∧
    ((∀ c0, inRange01 (f c0)) → memGrid c' (mapGrid f lut) → inRange01 c') := by
  have hcurve : 0 ≤ apply_curve x pts ∧ apply_curve x pts ≤ 1 := by
    have hperm := sortPoints_perm pts
    have hne' : sortPoints pts ≠ [] := by
      intro h0
      apply hpts
      have hlen := hperm.length_eq
      rw [h0, List.length_nil] at hlen
      exact List.length_eq_zero.mp hlen.symm
    exact interp_bounds x _ hne' (fun p hp => hys p (hperm.mem_iff.mp hp))
  refine ⟨inRange01_clampRGB _, inRange01_clampRGB _, inRange01_clampRGB _,
    inRange01_clampRGB _, inRange01_clampRGB _, inRange01_clampRGB _,
    inRange01_clampRGB _, inRange01_clampRGB _, inRange01_clampRGB _,
    inRange01_clampRGB _, inRange01_clampRGB _, inRange01_clampRGB _,
    inRange01_clampRGB _, hcurve, ?_⟩
  intro hf hmem
  obtain ⟨c0, _, rfl⟩ := memGrid_mapGrid hmem
  exact hf c0

theorem clamping_invariant_witness :
    ([((0 : ℚ), (0 : ℚ)), (1, 1)] : List (ℚ × ℚ)) ≠ [] ∧
    inRange01 (adjust_exposure ⟨0.9, 0.5, 0.1⟩ 2) ∧
    (0 ≤ apply_curve (1/2) [((0 : ℚ), (0 : ℚ)), (1, 1)] ∧
      apply_curve (1/2) [((0 : ℚ), (0 : ℚ)), (1, 1)] ≤ 1) := by
  have hpts : ([((0 : ℚ), (0 : ℚ)), (1, 1)] : List (ℚ × ℚ)) ≠ [] := by simp
  have hys : ∀ p ∈ ([((0 : ℚ), (0 : ℚ)), (1, 1)] : List (ℚ × ℚ)),
      0 ≤ p.2 ∧ p.2 ≤ 1 := by
    rintro p hp
    rcases List.mem_cons.mp hp with rfl | hp'
    · norm_num
    · rcases List.mem_singleton.mp hp' with rfl
      norm_num
  have h := clamping_invariant id 1 0 ⟨0.9, 0.5, 0.1⟩ 2 50 0.06 (15, 45)
    0 0 0 ⟨0.55, 0.48, 0.42⟩ ⟨0.55, 0.52, 0.45⟩ 0.5 (1/2)
    [((0 : ℚ), (0 : ℚ)), (1, 1)] (fun c0 => clampRGB c0) [] ⟨0, 0, 0⟩
    hpts hys
  exact ⟨hpts, h.1, h.2.2.2.2.2.2.2.2.2.2.2.2.2.1⟩

/-! ### C4: .cube encoder format -/

theorem length_flatten_uniform {α : Type} (N : ℕ) :
    ∀ l : List (List α), (∀ x ∈ l, x.length = N) →
      l.flatten.length = l.length * N
  | [], _ => by simp
  | a :: t, h => by
    have ht := length_flatten_uniform N t (fun x hx => h x (by simp [hx]))
    have ha : a.length = N := h a (by simp)
    simp only [List.flatten_cons, List.length_append, List.length_cons, ht, ha]
    ring

theorem getElem?_flatten_uniform {α : Type} (N : ℕ) :
    ∀ (l : List (List α)) (i j : ℕ), (∀ x ∈ l, x.length = N) → j < N →
      l.flatten[i * N + j]? = l[i]?.bind fun row => row[j]?
  | [], i, j, _, _ => by simp
  | a :: t, 0, j, h, hj => by
    have ha : a.length = N := h a (by simp)
    simp only [Nat.zero_mul, Nat.zero_add, List.flatten_cons,
      List.getElem?_append, ha, hj, if_true, List.getElem?_cons_zero,
      Option.some_bind]
  | a :: t, i + 1, j, h, hj => by
    have ha : a.length = N := h a (by simp)
    have hidx : (i + 1) * N + j = a.length + (i * N + j) := by rw [ha]; ring
    have hnot : ¬ a.length + (i * N + j) < a.length := by omega
    rw [List.flatten_cons, hidx, List.getElem?_append, if_neg hnot,
      Nat.add_sub_cancel_left, List.getElem?_cons_succ]
    exact getElem?_flatten_uniform N t i j (fun x hx => h x (by simp [hx])) hj

/-- C4: for a well-formed grid of size `N`, `write_cube` emits exactly the
four header lines (title in quotes, `LUT_3D_SIZE N`, the two domain
lines), then one blank line, then exactly `N³` data lines; the data line
at flat index `bi*N² + gi*N + ri` is the 6-decimal formatting of the cell
at `(bi, gi, ri)` — red index fastest-varying, then green, then blue.  In
particular a size-33 grid encoded with title `"Vintage"` starts with
`TITLE "Vintage"` and `LUT_3D_SIZE 33` and has `33³ = 35937` data
lines. -/
theorem write_cube_format (lut : Grid) (title : String) (N : ℕ)
    (hwf : wellFormed lut N) :
    write_cube lut title =
      ["TITLE \"" ++ title ++ "\"", "LUT_3D_SIZE " ++ toString N,
        "DOMAIN_MIN 0.0 0.0 0.0", "DOMAIN_MAX 1.0 1.0 1.0", ""] ++
        dataLines lut ∧
    (dataLines lut).length = N ^ 3 ∧
    (∀ bi gi ri : ℕ, bi < N → gi < N → ri < N →
      (dataLines lut)[bi * (N * N) + gi * N + ri]? =
        (((lut[bi]?.bind fun plane => plane[gi]?).bind
          fun row => row[ri]?).map cellLine)) ∧
    (N = 33 → title = "Vintage" →
      (write_cube lut title)[0]? = some "TITLE \"Vintage\"" ∧
      (write_cube lut title)[1]? = some "LUT_3D_SIZE 33" ∧
      (dataLines lut).length = 35937) := by
  obtain ⟨hlen, hpl⟩ := hwf
  have houter : ∀ y ∈ lut.map
      (fun plane => (plane.map (fun row => row.map cellLine)).flatten),
      y.length = N * N := by
    intro y hy
    simp only [List.mem_map] at hy
    obtain ⟨plane, hplane, rfl⟩ := hy
    obtain ⟨hplen, hrow⟩ := hpl plane hplane
    have hinner : ∀ z ∈ plane.map (fun row => row.map cellLine),
        z.length = N := by
      intro z hz
      simp only [List.mem_map] at hz
      obtain ⟨row, hrowm, rfl⟩ := hz
      simp [hrow row hrowm]
    rw [length_flatten_uniform N _ hinner, List.length_map, hplen]
  have hdl : (dataLines lut).length = N ^ 3 := by
    rw [dataLines, length_flatten_uniform (N * N) _ houter, List.length_map,
      hlen]
    ring
  have hhead : write_cube lut title =
      ["TITLE \"" ++ title ++ "\"", "LUT_3D_SIZE " ++ toString N,
        "DOMAIN_MIN 0.0 0.0 0.0", "DOMAIN_MAX 1.0 1.0 1.0", ""] ++
        dataLines lut := by
    rw [write_cube, hlen]
  have hindex : ∀ bi gi ri : ℕ, bi < N → gi < N → ri < N →
      (dataLines lut)[bi * (N * N) + gi * N + ri]? =
        (((lut[bi]?.bind fun plane => plane[gi]?).bind
          fun row => row[ri]?).map cellLine) := by
    intro bi gi ri hbi hgi hri
    have hj : gi * N + ri < N * N := by
      have h1 : gi * N + ri < (gi + 1) * N := by
        rw [Nat.succ_mul]; omega
      have h2 : (gi + 1) * N ≤ N * N := Nat.mul_le_mul_right N hgi
      omega
    rw [dataLines, Nat.add_assoc, getElem?_flatten_uniform (N * N) _ bi
      (gi * N + ri) houter hj, List.getElem?_map]
    have hbi' : bi < lut.length := by rw [hlen]; exact hbi
    rw [List.getElem?_eq_getElem hbi']
    simp only [Option.map_some', Option.some_bind]
    set plane := lut[bi] with hplane
    have hpmem : plane ∈ lut := List.getElem_mem hbi'
    obtain ⟨hplen, hrow⟩ := hpl plane hpmem
    have hinner : ∀ z ∈ plane.map (fun row => row.map cellLine),
        z.length = N := by
      intro z hz
      simp only [List.mem_map] at hz
      obtain ⟨row, hrowm, rfl⟩ := hz
      simp [hrow row hrowm]
    rw [getElem?_flatten_uniform N _ gi ri hinner hri, List.getElem?_map]
    have hgi' : gi < plane.length := by rw [hplen]; exact hgi
    rw [List.getElem?_eq_getElem hgi']
    simp only [Option.map_some', Option.some_bind]
    rw [List.getElem?_map]
  refine ⟨hhead, hdl, hindex, ?_⟩
  rintro rfl rfl
  refine ⟨?_, ?_, ?_⟩
  · rw [hhead]; rfl
  · rw [hhead]; rfl
  · rw [hdl]; norm_num

theorem write_cube_format_witness :
    wellFormed [[[(⟨0, 0, 0⟩ : RGB)]]] 1 ∧
    (dataLines [[[(⟨0, 0, 0⟩ : RGB)]]]).length = 1 ^ 3 := by
  have hwf : wellFormed [[[(⟨0, 0, 0⟩ : RGB)]]] 1 := by
    refine ⟨rfl, ?_⟩
    intro plane hplane
    simp only [List.mem_singleton] at hplane
    subst hplane
    refine ⟨rfl, ?_⟩
    intro row hrow
    simp only [List.mem_singleton] at hrow
    subst hrow
    rfl
  exact ⟨hwf, (write_cube_format [[[⟨0, 0, 0⟩]]] "T" 1 hwf).2.1⟩
